import Mathlib

/-!
Shallow embedding of `src/client/interpreter/locators/services/condaEnvService.ts`
(class `CondaEnvService`): discovery of Conda-managed Python interpreters.

The embedding mirrors the TypeScript source line by line:

* the JS string/array/path primitives the source calls
  (`String.prototype.split` on one-character separators, `indexOf`, `trim`,
  `toUpperCase`, Node's `path.join` / `path.dirname` / `path.basename`) are
  modelled as structurally recursive Lean functions on character lists;
* external collaborators are parameters: the filesystem check
  `fs.pathExists` becomes a function `String → Bool`, the secondary lookup
  service becomes an optional list of interpreter records, and the
  subprocess's standard output becomes a plain `String` argument;
* the module `./conda` and `VersionUtils` are part of this repository but
  absent from the reviewed slice, so their members are modelled from the
  spec (each such definition says so in its doc comment);
* the dynamically typed value produced by `JSON.parse` is modelled by the
  inductive `Json` further below, together with the JS property/`.length`
  access rules the pipeline exercises (a read on `null` throws); fallible
  evaluation is `Except String`.
-/

/-- Model of JS `String.prototype.split` with a one-character separator,
on character lists. The source only ever splits on the one-character
strings `"."`, `"|"` and `"-"`. `splitCharAux c acc cs` accumulates the
current (reversed) token in `acc`. -/
def splitCharAux (c : Char) (acc : List Char) : List Char → List (List Char)
  | [] => [acc.reverse]
  | x :: xs => if x = c then acc.reverse :: splitCharAux c [] xs else splitCharAux c (x :: acc) xs

/-- `"a|b".split("|") = ["a", "b"]`, `"".split(".") = [""]`, as in JS. -/
def jsSplitChar (c : Char) (s : String) : List String :=
  (splitCharAux c [] s.data).map String.mk

/-- Auxiliary scan for `jsIndexOf`: position of the first occurrence of
`needle`, counting from `i`, or `-1`. -/
def indexOfAux (needle : List Char) (i : Nat) : List Char → Int
  | [] => if needle = [] then (i : Int) else -1
  | x :: xs => if needle.isPrefixOf (x :: xs) then (i : Int) else indexOfAux needle (i + 1) xs

/-- Model of JS `String.prototype.indexOf`: index of the first occurrence of
`sub` in `s`, `-1` when absent (`0` for the empty search string, as in JS). -/
def jsIndexOf (s sub : String) : Int :=
  indexOfAux sub.data 0 s.data

/-- `s.indexOf(sub) >= 0`, the containment test the source uses everywhere. -/
def jsContains (s sub : String) : Bool :=
  decide (0 ≤ jsIndexOf s sub)

/-- The whitespace the source can meet: JS `trim` and JSON both treat
space, tab, line feed and carriage return as blank (JS `trim` strips a few
more exotic code points, never produced by `conda info --json`). -/
def isJsWhitespace (c : Char) : Bool :=
  c = ' ' || c = '\t' || c = '\n' || c = '\r'

/-- Model of JS `String.prototype.trim`. -/
def jsTrim (s : String) : String :=
  String.mk (((s.data.dropWhile isJsWhitespace).reverse.dropWhile isJsWhitespace).reverse)

/-- Model of JS `String.prototype.toUpperCase` (ASCII, which covers the
two constants `"ANACONDA"`/`"CONTINUUM"` the source compares against). -/
def jsToUpper (s : String) : String :=
  String.mk (s.data.map Char.toUpper)

/-- Model of JS `Array.prototype.join(sep)` on a list of strings. -/
def joinWith (sep : String) : List String → String
  | [] => ""
  | x :: xs => xs.foldl (fun acc y => acc ++ sep ++ y) x

/-- Model of Node `path.basename` (POSIX): last non-empty `/`-separated
component, `""` for `""` and `"/"`. -/
def pathBasename (p : String) : String :=
  (((jsSplitChar '/' p).filter (fun s => s != "")).getLast?).getD ""

/-- Model of Node `path.dirname` (POSIX). Trailing-separator corner cases
(`"a/"`) are not normalized; no path in the source ends in a separator. -/
def pathDirname (p : String) : String :=
  let comps := jsSplitChar '/' p
  if comps.length ≤ 1 then "."
  else
    let d := joinWith "/" comps.dropLast
    if d = "" then "/" else d

/-- Model of Node `path.join` (POSIX): concatenate the non-empty segments
with `/` (`"."` for no segments). `..`-normalization is not modelled; the
source never passes such segments. -/
def pathJoin (parts : List String) : String :=
  let joined := joinWith "/" (parts.filter (fun s => s != ""))
  if joined = "" then "." else joined

/-- Modelled from the spec: `AnacondaCompanyName`, exported by the missing
module `./conda` — "the fixed Conda vendor string" every produced record is
tagged with (spec §3, §4.2 step 5). The claims below hold for any value. -/
def AnacondaCompanyName : String := "Continuum Analytics"

/-- Modelled from the spec: `AnacondaDisplayName`, exported by the missing
module `./conda` — "the fixed Conda display name" returned when the
`sys.version` fallback finds nothing usable (spec §4.3). -/
def AnacondaDisplayName : String := "Anaconda"

/-- Modelled from the spec: `CONDA_RELATIVE_PY_PATH`, exported by the
missing module `./conda` — "the platform-specific relative path to the
Python executable inside a Conda environment (e.g., `bin/python` or
`python.exe` depending on platform — a fixed, platform-determined relative
segment sequence)" (spec §4.2 step 5). The POSIX variant is chosen; the
claims below hold for any fixed value. -/
def CONDA_RELATIVE_PY_PATH : List String := ["bin", "python"]

/-- ASCII digit test. -/
def isDigitChar (c : Char) : Bool := '0' ≤ c && c ≤ '9'

/-- Decimal value of a digit list. -/
def digitsVal (cs : List Char) : Nat :=
  cs.foldl (fun acc c => 10 * acc + (c.toNat - '0'.toNat)) 0

/-- Numeric value of one dotted segment (non-numeric segments count as 0). -/
def segValue (cs : List Char) : Nat :=
  if 0 < cs.length ∧ cs.all isDigitChar then digitsVal cs else 0

/-- The numeric segments of a dotted version string. -/
def versionSegments (v : String) : List Nat :=
  (splitCharAux '.' [] v.data).map segValue

/-- Segment-wise comparison of two segment lists (a strict prefix is
smaller). -/
def cmpNatList : List Nat → List Nat → Ordering
  | [], [] => .eq
  | [], _ :: _ => .lt
  | _ :: _, [] => .gt
  | a :: as, b :: bs => if a < b then .lt else if b < a then .gt else cmpNatList as bs

/-- Modelled from the spec: `VersionUtils.compareVersion`, imported from the
missing module `common/versionUtils` — "dotted-numeric comparison
(segment-wise numeric comparison, e.g. `3.10.2` > `3.9.9`)" (spec §4.1). -/
def compareVersion (a b : String) : Ordering :=
  cmpNatList (versionSegments a) (versionSegments b)

/-- The `PythonInterpreter` contract record: in TS every field except
`path` is optional, which `Option` models (`none` = the field is absent /
`undefined`). -/
structure PythonInterpreter where
  path : String
  displayName : Option String := none
  companyDisplayName : Option String := none
  version : Option String := none
deriving DecidableEq

/-- Placeholder record for the (unreachable) non-null assertion
`interpreter!` at the end of `parseCondaInfo`. -/
def defaultInterpreter : PythonInterpreter := { path := "" }

/-- The `CondaInfo` shape of the source (the declared TS type: every field
optional). Two fields are renamed because their source spellings are not
valid Lean field names here: `sysVersion` embeds the JSON key
`sys.version`, and `defaultPrefix` embeds the JSON key `default_prefix`. -/
structure CondaInfo where
  envs : Option (List String) := none
  sysVersion : Option String := none
  defaultPrefix : Option String := none
  conda_version : Option String := none
  python_version : Option String := none
  platform : Option String := none
deriving DecidableEq

/-- `isCondaEnvironment` (source lines 40-43): display name contains
`ANACONDA` (case-insensitively) or company name contains `CONTINUUM`.
Missing fields default to `''` via `|| ''`. -/
def isCondaEnvironment (interpreter : PythonInterpreter) : Bool :=
  jsContains (jsToUpper ((interpreter.displayName).getD "")) "ANACONDA" ||
    jsContains (jsToUpper ((interpreter.companyDisplayName).getD "")) "CONTINUUM"

/-- The filter `interpreter.version && interpreter.version.length > 0`
(source line 45): a missing or empty version string is falsy. -/
def hasVersion (interpreter : PythonInterpreter) : Bool :=
  match interpreter.version with
  | some s => decide (0 < s.length)
  | none => false

/-- The sort comparator of `getLatestVersion` as a Boolean "not greater":
`VersionUtils.compareVersion(a.version!, b.version!)` sorts ascending
(the non-null assertion is modelled by `Option.getD ""`, sound because the
list is filtered by `hasVersion` first). -/
def versionLeB (a b : PythonInterpreter) : Bool :=
  compareVersion ((a.version).getD "") ((b.version).getD "") != Ordering.gt

/-- `versionLeB` as a relation, for `List.insertionSort`. -/
def versionLe (a b : PythonInterpreter) : Prop := versionLeB a b = true

instance : DecidableRel versionLe :=
  fun a b => inferInstanceAs (Decidable (versionLeB a b = true))

/-- `getLatestVersion` (source lines 44-51): keep the interpreters with a
non-empty version string, sort them ascending by `compareVersion`, return
the last one (`undefined`, i.e. `none`, when the filtered list is empty).
JS `Array.prototype.sort` is a stable sort, and a stable sort under a fixed
total preorder has a unique result, so the stable `List.insertionSort`
models it exactly. -/
def getLatestVersion (interpreters : List PythonInterpreter) : Option PythonInterpreter :=
  let sortedInterpreters := List.insertionSort versionLe (interpreters.filter hasVersion)
  sortedInterpreters.getLast?

/-- `getCondaFile` (source lines 26-39). The secondary lookup service
`registryLookupForConda` is an external collaborator; its (awaited)
`getInterpreters()` result is modelled as the optional list itself
(`none` = no provider configured). `fs.pathExists` is the parameter
`pathExists`. The launcher file name is the literal `'conda.exe'` of
source line 32. -/
def getCondaFile (registryLookupForConda : Option (List PythonInterpreter))
    (pathExists : String → Bool) : String :=
  match registryLookupForConda with
  | none => "conda"
  | some interpreters =>
    let condaInterpreters := interpreters.filter isCondaEnvironment
    let condaPath :=
      match getLatestVersion condaInterpreters with
      | some condaInterpreter => pathJoin [pathDirname condaInterpreter.path, "conda.exe"]
      | none => "conda"
    if pathExists condaPath then condaPath else "conda"

/-- `getDisplayVersion` (source lines 136-140): split on `.`, keep the
first three segments, rejoin. The TS default parameter `value = ''`
applies exactly when the argument is `undefined`, i.e. `none`. -/
def getDisplayVersion (value : Option String) : String :=
  let v := value.getD ""
  joinWith "." ((jsSplitChar '.' v).take 3)

/-- `getBitnessDisplayName` (source lines 141-152). The local
`parsedValue` of line 142 is computed but never used by the source and is
pure on strings, so it is omitted. -/
def getBitnessDisplayName (value : Option String) : String :=
  let v := value.getD ""
  if ["64", "x86", "x86_64"].any (fun item => jsContains v item) then "64 bit"
  else if ["32", "i686", "i386"].any (fun item => jsContains v item) then "32 bit"
  else v

/-- `getDisplayNameFromSysVersion` (source lines 124-135): split on `|`,
trim the segments; the second segment verbatim when it exists and contains
`conda`, the fixed display name otherwise. The call site always passes a
string, so only the falsiness of `''` matters for the first guard. -/
def getDisplayNameFromSysVersion (versionInfo : String) : String :=
  if versionInfo = "" then AnacondaDisplayName
  else
    let versionParts := (jsSplitChar '|' versionInfo).map jsTrim
    if 1 < versionParts.length ∧ jsContains (versionParts.getD 1 "") "conda" = true then
      versionParts.getD 1 ""
    else AnacondaDisplayName

/-- The final join of `getDisplayName` (source lines 94-97). -/
def displayNameJoin (condaVersion bitnesAndVersion : String) : String :=
  jsTrim (joinWith " "
    (([AnacondaCompanyName, condaVersion,
       if 0 < bitnesAndVersion.length then "(" ++ bitnesAndVersion ++ ")" else ""]).filter
      (fun item => decide (0 < item.length))))

/-- `getDisplayName` (source lines 81-98). The source returns early from
inside the `if` when `sys.version` is a string; here that early return is
the `some` branch of the inner `match`, and every other path reaches the
common join. (`bitnesAndVersion` keeps the source's spelling.) -/
def getDisplayName (info : CondaInfo) : String :=
  let condaVersion := (info.conda_version).getD ""
  let pythonVersion := getDisplayVersion info.python_version
  let bitness := getBitnessDisplayName info.platform
  let bitnesAndVersion :=
    joinWith ", " ([bitness, pythonVersion].filter (fun item => decide (0 < item.length)))
  match (if condaVersion.length = 0 ∧ pythonVersion.length = 0 ∧ bitnesAndVersion.length = 0
         then info.sysVersion else none) with
  | some sysVersion => getDisplayNameFromSysVersion sysVersion
  | none => displayNameJoin condaVersion bitnesAndVersion

/-- The record built for one candidate environment root (the first `map` of
source lines 62-73): the interpreter path joins the root with
`CONDA_RELATIVE_PY_PATH`; the display name is suffixed with the
environment's basename unless the root is the default prefix
(`env === info.default_prefix`). -/
def mkCondaInterpreter (displayName : String) (dp : Option String) (env : String) :
    PythonInterpreter :=
  { path := pathJoin (env :: CONDA_RELATIVE_PY_PATH)
    displayName := some (if some env = dp then displayName
      else displayName ++ " (" ++ pathBasename env ++ ")")
    companyDisplayName := some AnacondaCompanyName
    version := none }

/-- `parseCondaInfo` (source lines 52-80), with the source's mutation made
explicit. In JS, `const envs = Array.isArray(info.envs) ? info.envs : []`
aliases the array held by the descriptor, so `envs.push(info.default_prefix)`
appends to the descriptor's own `envs` array; in that case the updated
descriptor is returned as the second component (otherwise the fresh local
array absorbs the push and the descriptor is unchanged). The first
component is the resolved result: each candidate becomes a record, each
record passes `fs.pathExists`, the nulls are filtered out, and the
non-null assertion `interpreter!` is `Option.getD`. -/
def parseCondaInfoRun (pathExists : String → Bool) (info : CondaInfo) :
    List PythonInterpreter × CondaInfo :=
  let displayName := getDisplayName info
  let envs0 : List String := match info.envs with | some l => l | none => []
  let pushDefault : Bool :=
    match info.defaultPrefix with
    | some s => decide (0 < s.length)
    | none => false
  let envs := if pushDefault then envs0 ++ [(info.defaultPrefix).getD ""] else envs0
  let updated : CondaInfo :=
    match info.envs, pushDefault with
    | some l, true => { info with envs := some (l ++ [(info.defaultPrefix).getD ""]) }
    | _, _ => info
  let promises :=
    (envs.map (mkCondaInterpreter displayName info.defaultPrefix)).map
      (fun interpreter => if pathExists interpreter.path then some interpreter else none)
  (((promises.filter (fun o => o.isSome)).map (fun o => o.getD defaultInterpreter)), updated)

/-- The value `parseCondaInfo` resolves with (the list; the state component
of `parseCondaInfoRun` carries the mutation of the descriptor). -/
def parseCondaInfo (pathExists : String → Bool) (info : CondaInfo) : List PythonInterpreter :=
  (parseCondaInfoRun pathExists info).1

/-- A value `JSON.parse` can produce. Numeric lexemes are kept verbatim
(JS would re-normalize them when converting back to a string; no theorem
below exercises a number). -/
inductive Json where
  | null : Json
  | bool (b : Bool) : Json
  | num (lexeme : String) : Json
  | str (s : String) : Json
  | arr (elements : List Json) : Json
  | obj (members : List (String × Json)) : Json

mutual
/-- Structural equality of JSON values. It models JS strict equality `===`
at the two comparison sites of the source: both compare against strings
(where `===` is value equality) or against the very value just read from
the descriptor (where reference equality holds and structural equality
agrees). -/
def Json.beq : Json → Json → Bool
  | .null, .null => true
  | .bool a, .bool b => a == b
  | .num a, .num b => a == b
  | .str a, .str b => a == b
  | .arr a, .arr b => Json.beqList a b
  | .obj a, .obj b => Json.beqMembers a b
  | _, _ => false

/-- Element-wise `Json.beq`. -/
def Json.beqList : List Json → List Json → Bool
  | [], [] => true
  | a :: as, b :: bs => Json.beq a b && Json.beqList as bs
  | _, _ => false

/-- Member-wise `Json.beq`. -/
def Json.beqMembers : List (String × Json) → List (String × Json) → Bool
  | [], [] => true
  | (ka, va) :: as, (kb, vb) :: bs => ka == kb && Json.beq va vb && Json.beqMembers as bs
  | _, _ => false
end

/-- Whether a JSON numeric lexeme denotes a non-zero number: some digit
`1`-`9` occurs in the mantissa (before any exponent marker). -/
def numLexemeNonzero (lexeme : String) : Bool :=
  (lexeme.data.takeWhile (fun c => c != 'e' && c != 'E')).any (fun c => '1' ≤ c && c ≤ '9')

/-- JS property read `o.k` on a `JSON.parse` result: throws on `null`,
yields the member (last duplicate wins, as in `JSON.parse`) on an object,
and `undefined` on any other value (none of the property names the source
reads collides with a built-in of strings, numbers, booleans or arrays). -/
def jsMember (o : Json) (k : String) : Except String (Option Json) :=
  match o with
  | .null => .error ("TypeError: Cannot read properties of null (reading " ++ k ++ ")")
  | .obj members => .ok ((members.reverse.find? (fun m => m.1 == k)).map (fun m => m.2))
  | _ => .ok none

/-- JS truthiness of a `JSON.parse` value. -/
def jsTruthy : Json → Bool
  | .null => false
  | .bool b => b
  | .num lexeme => numLexemeNonzero lexeme
  | .str s => s != ""
  | .arr _ => true
  | .obj _ => true

/-- JS truthiness with `undefined` (`none`) falsy. -/
def jsTruthyOpt : Option Json → Bool
  | none => false
  | some v => jsTruthy v

/-- JS `.length` read: defined on strings and arrays, `undefined`
elsewhere, a throw on `null` (no `null` reaches a `.length` read in this
pipeline, but the throw is modelled). -/
def jsLength : Json → Except String (Option Nat)
  | .null => .error "TypeError: Cannot read properties of null (reading length)"
  | .str s => .ok (some s.length)
  | .arr elements => .ok (some elements.length)
  | _ => .ok none

mutual
/-- JS string conversion as performed by `Array.prototype.join`'s element
stringification and by template literals on primitives. -/
def jsToString : Json → String
  | .null => "null"
  | .bool b => if b then "true" else "false"
  | .num lexeme => lexeme
  | .str s => s
  | .arr elements => joinWith "," (jsArrStrings elements)
  | .obj _ => "[object Object]"

/-- Element stringification of `Array.prototype.join`: `null` (and
`undefined`, which cannot occur inside a `JSON.parse` result) becomes the
empty string. -/
def jsArrStrings : List Json → List String
  | [] => []
  | .null :: es => "" :: jsArrStrings es
  | e :: es => jsToString e :: jsArrStrings es
end

/-- JS `Array.prototype.indexOf` (strict equality against `target`; the
source only ever searches for short strings, on which structural equality
coincides with `===`). -/
def jsArrIndexOfAux (target : Json) (i : Nat) : List Json → Int
  | [] => -1
  | e :: es => if Json.beq e target then (i : Int) else jsArrIndexOfAux target (i + 1) es

/-- `getDisplayVersion` on a raw JSON field value: the default parameter
`value = ''` replaces only `undefined`; `value.split` throws on anything
but a string. -/
def getDisplayVersionDyn (value : Option Json) : Except String String :=
  let v : Json := match value with | none => .str "" | some v => v
  match v with
  | .str s => .ok (joinWith "." ((jsSplitChar '.' s).take 3))
  | _ => .error "TypeError: value.split is not a function"

/-- `getBitnessDisplayName` on a raw JSON field value. Strings behave as
in the typed model. Arrays have `indexOf` (element equality) but no
`split`, so the dead `parsedValue` of source line 142 throws exactly when
the array holds `"-"` at an index above 0; every other value type throws
at `value.indexOf('-')`. -/
def getBitnessDisplayNameDyn (value : Option Json) : Except String Json :=
  let v : Json := match value with | none => .str "" | some v => v
  match v with
  | .str s =>
    .ok (.str (if ["64", "x86", "x86_64"].any (fun item => jsContains s item) then "64 bit"
      else if ["32", "i686", "i386"].any (fun item => jsContains s item) then "32 bit"
      else s))
  | .arr elements =>
    if 0 < jsArrIndexOfAux (.str "-") 0 elements then
      .error "TypeError: value.split is not a function"
    else if ["64", "x86", "x86_64"].any
        (fun item => decide (0 ≤ jsArrIndexOfAux (.str item) 0 elements)) then
      .ok (.str "64 bit")
    else if ["32", "i686", "i386"].any
        (fun item => decide (0 ≤ jsArrIndexOfAux (.str item) 0 elements)) then
      .ok (.str "32 bit")
    else .ok (.arr elements)
  | _ => .error "TypeError: value.indexOf is not a function"

/-- `.filter(item => item.length > 0)` over JSON values
(`undefined > 0` is `false`, so values without a length are dropped). -/
def filterLengthPositive : List Json → Except String (List Json)
  | [] => .ok []
  | item :: rest => do
    let l ← jsLength item
    let tail ← filterLengthPositive rest
    match l with
    | some n => if 0 < n then .ok (item :: tail) else .ok tail
    | none => .ok tail

/-- `getDisplayName` on a raw `JSON.parse` value, following the source's
evaluation order: `info.conda_version` is read first (the throw on a
`null` descriptor happens here), then `python_version`, `platform`,
the emptiness test, and either the `sys.version` fallback (only when that
field passes `typeof sysVersion === 'string'`) or the final join. -/
def getDisplayNameDyn (info : Json) : Except String String := do
  let cv0 ← jsMember info "conda_version"
  let condaVersion : Json := match cv0 with
    | some v => if jsTruthy v then v else .str ""
    | none => .str ""
  let pv0 ← jsMember info "python_version"
  let pythonVersion ← getDisplayVersionDyn pv0
  let pl0 ← jsMember info "platform"
  let bitness ← getBitnessDisplayNameDyn pl0
  let kept ← filterLengthPositive [bitness, .str pythonVersion]
  let bitnesAndVersion := joinWith ", " (kept.map jsToString)
  let cvLen ← jsLength condaVersion
  if cvLen = some 0 ∧ pythonVersion.length = 0 ∧ bitnesAndVersion.length = 0 then do
    let sv0 ← jsMember info "sys.version"
    match sv0 with
    | some (.str sysVersion) => pure (getDisplayNameFromSysVersion sysVersion)
    | _ => do
      let kept2 ← filterLengthPositive [.str AnacondaCompanyName, condaVersion,
        .str (if 0 < bitnesAndVersion.length then "(" ++ bitnesAndVersion ++ ")" else "")]
      pure (jsTrim (joinWith " " (kept2.map jsToString)))
  else do
    let kept2 ← filterLengthPositive [.str AnacondaCompanyName, condaVersion,
      .str (if 0 < bitnesAndVersion.length then "(" ++ bitnesAndVersion ++ ")" else "")]
    pure (jsTrim (joinWith " " (kept2.map jsToString)))

/-- One candidate record on raw JSON values (the first `map` of source
lines 62-73): the display-name ternary evaluates `path.basename(env)`
first (a throw for non-strings), then `path.join(env, ...)` (idem).
`env === info.default_prefix` is strict equality, which structural
equality models (exact on strings; for the appended `default_prefix`
value itself the aliasing makes `===` hold, as does structural equality). -/
def condaInterpreterDyn (displayName : String) (dp0 : Option Json) (env : Json) :
    Except String PythonInterpreter := do
  let interpreterDisplayName ←
    (if (match dp0 with | some d => Json.beq env d | none => false) then Except.ok displayName
     else match env with
       | .str s => Except.ok (displayName ++ " (" ++ pathBasename s ++ ")")
       | _ => Except.error "TypeError: path.basename: Path must be a string")
  let p ← (match env with
    | .str s => Except.ok (pathJoin (s :: CONDA_RELATIVE_PY_PATH))
    | _ => Except.error "TypeError: path.join: Path must be a string")
  pure { path := p, displayName := some interpreterDisplayName,
         companyDisplayName := some AnacondaCompanyName, version := none }

/-- `parseCondaInfo` on a raw `JSON.parse` value (the function the `async`
method actually runs; a `.error` is the rejection of the promise it
returns). The in-place `push` mutation is observable only through the
typed `parseCondaInfoRun`; here only the resolved value / rejection is
modelled. -/
def parseCondaInfoDyn (pathExists : String → Bool) (info : Json) :
    Except String (List PythonInterpreter) := do
  let displayName ← getDisplayNameDyn info
  let envs0 ← jsMember info "envs"
  let envs : List Json := match envs0 with
    | some (.arr elements) => elements
    | _ => []
  let dp0 ← jsMember info "default_prefix"
  let pushDefault ←
    (if jsTruthyOpt dp0 then do
      let l ← jsLength (dp0.getD .null)
      pure (match l with | some n => decide (0 < n) | none => false)
    else pure false)
  let envs := if pushDefault then envs ++ [dp0.getD .null] else envs
  let interpreters ← envs.mapM (condaInterpreterDyn displayName dp0)
  pure (((interpreters.map
      (fun interpreter => if pathExists interpreter.path then some interpreter else none)).filter
    (fun o => o.isSome)).map (fun o => o.getD defaultInterpreter))

/-- Hexadecimal digit value. -/
def hexVal (c : Char) : Option Nat :=
  if '0' ≤ c ∧ c ≤ '9' then some (c.toNat - '0'.toNat)
  else if 'a' ≤ c ∧ c ≤ 'f' then some (c.toNat - 'a'.toNat + 10)
  else if 'A' ≤ c ∧ c ≤ 'F' then some (c.toNat - 'A'.toNat + 10)
  else none

/-- One JSON string escape after the backslash: the escaped character and
the remaining input (surrogate-pair recombination of `\uXXXX` escapes is
not modelled; `conda info --json` output is plain ASCII). -/
def escChar (esc : Char) (rest : List Char) : Option (Char × List Char) :=
  match esc with
  | '"' => some ('"', rest)
  | '\\' => some ('\\', rest)
  | '/' => some ('/', rest)
  | 'b' => some (Char.ofNat 8, rest)
  | 'f' => some (Char.ofNat 12, rest)
  | 'n' => some ('\n', rest)
  | 'r' => some ('\r', rest)
  | 't' => some ('\t', rest)
  | 'u' =>
    match rest with
    | a :: b :: c :: d :: rest2 =>
      match hexVal a, hexVal b, hexVal c, hexVal d with
      | some ha, some hb, some hc, some hd =>
        some (Char.ofNat (((ha * 16 + hb) * 16 + hc) * 16 + hd), rest2)
      | _, _, _, _ => none
    | _ => none
  | _ => none

/-- A character that may continue a JSON number lexeme. -/
def isNumChar (c : Char) : Bool :=
  isDigitChar c || c = '-' || c = '+' || c = '.' || c = 'e' || c = 'E'

/-- Leading JSON whitespace. -/
def skipWs (cs : List Char) : List Char :=
  cs.dropWhile isJsWhitespace

mutual
/-- Model of `JSON.parse`, recursive part: one JSON value and the rest of
the input, `none` for a syntax error (= the `SyntaxError` the source
catches). The `fuel` only serves termination and is chosen large enough
at the entry point; number validation is lexical (a leading sign or digit,
then sign/digit/dot/exponent characters). -/
def parseValue : Nat → List Char → Option (Json × List Char)
  | 0, _ => none
  | fuel + 1, input =>
    match skipWs input with
    | [] => none
    | 'n' :: 'u' :: 'l' :: 'l' :: rest => some (.null, rest)
    | 't' :: 'r' :: 'u' :: 'e' :: rest => some (.bool true, rest)
    | 'f' :: 'a' :: 'l' :: 's' :: 'e' :: rest => some (.bool false, rest)
    | '"' :: rest => (parseStringRest fuel rest).map (fun r => (.str (String.mk r.1), r.2))
    | '[' :: rest =>
      (match skipWs rest with
       | ']' :: rest2 => some (.arr [], rest2)
       | _ => (parseElements fuel rest).map (fun r => (.arr r.1, r.2)))
    | '{' :: rest =>
      (match skipWs rest with
       | '}' :: rest2 => some (.obj [], rest2)
       | _ => (parseMembers fuel rest).map (fun r => (.obj r.1, r.2)))
    | c :: rest =>
      if c = '-' || isDigitChar c then
        some (.num (String.mk ((c :: rest).takeWhile isNumChar)),
          (c :: rest).dropWhile isNumChar)
      else none

/-- The rest of a JSON string after its opening quote: content and input
after the closing quote. -/
def parseStringRest : Nat → List Char → Option (List Char × List Char)
  | 0, _ => none
  | fuel + 1, input =>
    match input with
    | [] => none
    | '"' :: rest => some ([], rest)
    | '\\' :: esc :: rest =>
      (match escChar esc rest with
       | some (ch, rest2) => (parseStringRest fuel rest2).map (fun r => (ch :: r.1, r.2))
       | none => none)
    | c :: rest => (parseStringRest fuel rest).map (fun r => (c :: r.1, r.2))

/-- The elements of a non-empty JSON array, up to and including `]`. -/
def parseElements : Nat → List Char → Option (List Json × List Char)
  | 0, _ => none
  | fuel + 1, input =>
    match parseValue fuel input with
    | none => none
    | some (v, rest) =>
      match skipWs rest with
      | ',' :: rest2 => (parseElements fuel rest2).map (fun r => (v :: r.1, r.2))
      | ']' :: rest2 => some ([v], rest2)
      | _ => none

/-- The members of a non-empty JSON object, up to and including `}`. -/
def parseMembers : Nat → List Char → Option (List (String × Json) × List Char)
  | 0, _ => none
  | fuel + 1, input =>
    match skipWs input with
    | '"' :: rest =>
      (match parseStringRest fuel rest with
       | some (key, rest2) =>
         (match skipWs rest2 with
          | ':' :: rest3 =>
            (match parseValue fuel rest3 with
             | some (v, rest4) =>
               (match skipWs rest4 with
                | ',' :: rest5 =>
                  (parseMembers fuel rest5).map (fun r => ((String.mk key, v) :: r.1, r.2))
                | '}' :: rest5 => some ([(String.mk key, v)], rest5)
                | _ => none)
             | none => none)
          | _ => none)
       | none => none)
    | _ => none
end

/-- Model of `JSON.parse`: `none` is a thrown `SyntaxError`; trailing
non-whitespace is an error. The fuel bound exceeds any possible recursion
depth (each recursive call follows the consumption of at least one input
character). -/
def JSONparse (s : String) : Option Json :=
  match parseValue (s.length * 2 + 8) s.data with
  | some (v, rest) => if skipWs rest = [] then some v else none
  | none => none

/-- `getSuggestionsFromConda` (source lines 99-123), given the standard
output the subprocess handed to the callback. Which binary `getCondaFile`
resolved does not influence this value, so the binary-resolution step is
not a parameter. An empty `stdout` resolves with `[]`; a `JSON.parse`
`SyntaxError` is caught by the `try`/`catch` and resolves with `[]`. A
rejection of the `async` `parseCondaInfo(info)` promise, however, is NOT
caught: `resolve(this.parseCondaInfo(info))` adopts that promise, and an
exception thrown inside an `async` function surfaces as a rejection, not
as a synchronous throw the surrounding `try` could intercept. Such a
rejection (an `Except.error` here) propagates to the caller of
`getInterpreters()`. -/
def getSuggestionsFromConda (pathExists : String → Bool) (stdout : String) :
    Except String (List PythonInterpreter) :=
  if stdout.length = 0 then .ok []
  else
    match JSONparse stdout with
    | none => .ok []
    | some info => parseCondaInfoDyn pathExists info

/-- `getInterpreters` (source lines 21-23) ignores its `resource` argument
and delegates to `getSuggestionsFromConda`. -/
def getInterpreters (pathExists : String → Bool) (stdout : String) :
    Except String (List PythonInterpreter) :=
  getSuggestionsFromConda pathExists stdout

/-- The candidate list `parseCondaInfo` loops over, written the way the
spec describes it: every entry of `envs` in order, then `default_prefix`
appended last when present and non-empty. Used to state the claims; the
lemma below proves the source-shaped `parseCondaInfoRun` processes exactly
this list. -/
def candidateEnvs (info : CondaInfo) : List String :=
  (info.envs).getD [] ++
    (match info.defaultPrefix with
     | some s => if 0 < s.length then [s] else []
     | none => [])

theorem map_toOption_filter_getD {α : Type} (p : α → Bool) (d : α) (l : List α) :
    ((l.map (fun a => if p a then some a else none)).filter (fun o => o.isSome)).map
      (fun o => o.getD d) = l.filter p := by
  induction l with
  | nil => rfl
  | cons a t ih =>
    by_cases h : p a = true
    · simp [h, ih]
    · simp [h, ih]

/-- The `if pushDefault ...` list of `parseCondaInfoRun` is the spec-shaped
candidate list. -/
theorem pushed_envs_eq_candidateEnvs (info : CondaInfo) :
    (if (match info.defaultPrefix with
         | some s => decide (0 < s.length)
         | none => false) = true
     then (match info.envs with | some l => l | none => []) ++ [(info.defaultPrefix).getD ""]
     else (match info.envs with | some l => l | none => [])) = candidateEnvs info := by
  unfold candidateEnvs
  cases henv : info.envs with
  | none =>
    cases hdp : info.defaultPrefix with
    | none => simp
    | some s =>
      by_cases hs : 0 < s.length
      · simp [hs]
      · simp [hs]
  | some l =>
    cases hdp : info.defaultPrefix with
    | none => simp
    | some s =>
      by_cases hs : 0 < s.length
      · simp [hs]
      · simp [hs]

theorem parseCondaInfo_eq (pathExists : String → Bool) (info : CondaInfo) :
    parseCondaInfo pathExists info =
      ((candidateEnvs info).map
        (mkCondaInterpreter (getDisplayName info) info.defaultPrefix)).filter
        (fun r => pathExists r.path) := by
  show ((((if (match info.defaultPrefix with
               | some s => decide (0 < s.length)
               | none => false) = true
           then (match info.envs with | some l => l | none => []) ++
             [(info.defaultPrefix).getD ""]
           else (match info.envs with | some l => l | none => [])).map
      (mkCondaInterpreter (getDisplayName info) info.defaultPrefix)).map
      (fun interpreter => if pathExists interpreter.path then some interpreter else none)).filter
      (fun o => o.isSome)).map (fun o => o.getD defaultInterpreter) = _
  refine Eq.trans
    (map_toOption_filter_getD (fun r => pathExists r.path) defaultInterpreter _) ?_
  rw [pushed_envs_eq_candidateEnvs]

theorem cmpNatList_refl (a : List Nat) : cmpNatList a a = Ordering.eq := by
  induction a with
  | nil => rfl
  | cons x xs ih => simp [cmpNatList, Nat.lt_irrefl, ih]

theorem cmpNatList_swap (a b : List Nat) : cmpNatList b a = (cmpNatList a b).swap := by
  induction a generalizing b with
  | nil => cases b <;> rfl
  | cons x xs ih =>
    cases b with
    | nil => rfl
    | cons y ys =>
      simp only [cmpNatList]
      rcases Nat.lt_trichotomy x y with h | h | h
      · rw [if_neg (Nat.lt_asymm h), if_pos h, if_pos h]
        rfl
      · subst h
        simp [Nat.lt_irrefl, ih]
      · rw [if_pos h, if_neg (Nat.lt_asymm h), if_pos h]
        rfl

theorem cmpNatList_le_trans {a b c : List Nat} (h1 : cmpNatList a b ≠ Ordering.gt)
    (h2 : cmpNatList b c ≠ Ordering.gt) : cmpNatList a c ≠ Ordering.gt := by
  induction a generalizing b c with
  | nil => cases c <;> simp [cmpNatList]
  | cons x xs ih =>
    cases b with
    | nil => simp [cmpNatList] at h1
    | cons y ys =>
      cases c with
      | nil => simp [cmpNatList] at h2
      | cons z zs =>
        simp only [cmpNatList] at h1 h2 ⊢
        have hxy : ¬ y < x := by
          intro hy
          rw [if_neg (Nat.lt_asymm hy), if_pos hy] at h1
          exact h1 rfl
        have hyz : ¬ z < y := by
          intro hz
          rw [if_neg (Nat.lt_asymm hz), if_pos hz] at h2
          exact h2 rfl
        by_cases hxz : x < z
        · rw [if_pos hxz]
          simp
        · have hzx : ¬ z < x := by omega
          rw [if_neg hxz, if_neg hzx]
          rw [if_neg (show ¬ x < y by omega), if_neg (show ¬ y < x by omega)] at h1
          rw [if_neg (show ¬ y < z by omega), if_neg (show ¬ z < y by omega)] at h2
          exact ih h1 h2

theorem versionLe_iff (a b : PythonInterpreter) :
    versionLe a b ↔
      compareVersion ((a.version).getD "") ((b.version).getD "") ≠ Ordering.gt := by
  unfold versionLe versionLeB
  cases compareVersion ((a.version).getD "") ((b.version).getD "") <;> decide

theorem versionLe_refl (a : PythonInterpreter) : versionLe a a := by
  rw [versionLe_iff]
  unfold compareVersion
  rw [cmpNatList_refl]
  intro h
  cases h

instance : IsTotal PythonInterpreter versionLe :=
  ⟨fun a b => by
    rw [versionLe_iff, versionLe_iff]
    unfold compareVersion
    by_cases h : cmpNatList (versionSegments ((a.version).getD ""))
        (versionSegments ((b.version).getD "")) = Ordering.gt
    · right
      rw [cmpNatList_swap, h]
      intro hc
      cases hc
    · left
      exact h⟩

instance : IsTrans PythonInterpreter versionLe :=
  ⟨fun a b c hab hbc => by
    rw [versionLe_iff] at hab hbc ⊢
    unfold compareVersion at hab hbc ⊢
    exact cmpNatList_le_trans hab hbc⟩

/-- Every member of a list sorted (as `Pairwise`) by a reflexive relation
is related to the list's last element. -/
theorem pairwise_rel_getLast {α : Type} {r : α → α → Prop} (hrefl : ∀ a, r a a) :
    ∀ (l : List α) (hne : l ≠ []), l.Pairwise r → ∀ x ∈ l, r x (l.getLast hne)
  | [], hne, _, _, hx => absurd rfl hne
  | [a], _, _, x, hx => by
    have : x = a := by simpa using hx
    subst this
    exact hrefl x
  | a :: b :: t, _, hp, x, hx => by
    have hbt : b :: t ≠ [] := by simp
    rw [List.getLast_cons hbt]
    rcases List.mem_cons.1 hx with hxa | hxbt
    · subst hxa
      exact (List.pairwise_cons.1 hp).1 _ (List.getLast_mem hbt)
    · exact pairwise_rel_getLast hrefl (b :: t) hbt (List.pairwise_cons.1 hp).2 x hxbt

/-- What `getLatestVersion` returning a record means: the record is one of
the inputs, has a non-empty version string, and no input with a non-empty
version string compares greater. -/
theorem getLatestVersion_some {l : List PythonInterpreter} {r : PythonInterpreter}
    (h : getLatestVersion l = some r) :
    r ∈ l ∧ hasVersion r = true ∧ ∀ j ∈ l, hasVersion j = true → versionLe j r := by
  unfold getLatestVersion at h
  rcases hs : List.insertionSort versionLe (l.filter hasVersion) with _ | ⟨a, t⟩
  · rw [hs] at h
    cases h
  · have hne : List.insertionSort versionLe (l.filter hasVersion) ≠ [] := by
      rw [hs]
      simp
    rw [List.getLast?_eq_getLast _ hne] at h
    have hr : r = (List.insertionSort versionLe (l.filter hasVersion)).getLast hne :=
      (Option.some.inj h).symm
    have hmem : r ∈ List.insertionSort versionLe (l.filter hasVersion) := by
      rw [hr]
      exact List.getLast_mem hne
    have hmemf : r ∈ l.filter hasVersion := (List.mem_insertionSort versionLe).1 hmem
    have hrl := List.mem_filter.1 hmemf
    refine ⟨hrl.1, hrl.2, fun j hj hjv => ?_⟩
    have hjs : j ∈ List.insertionSort versionLe (l.filter hasVersion) :=
      (List.mem_insertionSort versionLe).2 (List.mem_filter.2 ⟨hj, hjv⟩)
    rw [hr]
    exact pairwise_rel_getLast versionLe_refl _ hne
      (List.sorted_insertionSort versionLe (l.filter hasVersion)) j hjs

/-- `getLatestVersion` returns nothing exactly when no input has a
non-empty version string. -/
theorem getLatestVersion_none_iff (l : List PythonInterpreter) :
    getLatestVersion l = none ↔ ∀ j ∈ l, hasVersion j = false := by
  unfold getLatestVersion
  rw [List.getLast?_eq_none_iff]
  constructor
  · intro h j hj
    have : l.filter hasVersion = [] := by
      have hlen := List.length_insertionSort versionLe (l.filter hasVersion)
      rw [h] at hlen
      exact List.eq_nil_of_length_eq_zero hlen.symm
    have := List.filter_eq_nil_iff.1 this j hj
    exact Bool.not_eq_true _ ▸ (by simpa using this)
  · intro h
    have : l.filter hasVersion = [] :=
      List.filter_eq_nil_iff.2 (fun a ha => by rw [h a ha]; simp)
    rw [this]
    rfl

/-- Claim C2: the candidate environment list processed by `parseCondaInfo`
is every entry of `envs` in the descriptor's order followed by
`default_prefix` appended last when present and non-empty, with no
de-duplication, and the returned record list is exactly that list mapped
to records and filtered by the filesystem check — order preserved, no
sorting. -/
theorem claim_C2_candidate_order (pathExists : String → Bool) (info : CondaInfo) :
    parseCondaInfo pathExists info =
      ((((info.envs).getD []) ++
        (match info.defaultPrefix with
         | some s => if 0 < s.length then [s] else []
         | none => [])).map
        (mkCondaInterpreter (getDisplayName info) info.defaultPrefix)).filter
        (fun r => pathExists r.path) :=
  parseCondaInfo_eq pathExists info

/-- Claim C3: every record `parseCondaInfo` returns has a path the
filesystem check accepted, and a candidate whose computed interpreter path
(environment root joined with the Conda-relative Python path inside
`mkCondaInterpreter`) fails the check yields no record, whatever the other
descriptor fields. -/
theorem claim_C3_only_existing_paths (pathExists : String → Bool) (info : CondaInfo) :
    (∀ r ∈ parseCondaInfo pathExists info, pathExists r.path = true) ∧
    (∀ env : String,
      pathExists (mkCondaInterpreter (getDisplayName info) info.defaultPrefix env).path
        = false →
      mkCondaInterpreter (getDisplayName info) info.defaultPrefix env ∉
        parseCondaInfo pathExists info) := by
  constructor
  · intro r hr
    rw [parseCondaInfo_eq] at hr
    exact (List.mem_filter.1 hr).2
  · intro env hfail hmem
    rw [parseCondaInfo_eq] at hmem
    have hkept := (List.mem_filter.1 hmem).2
    rw [hfail] at hkept
    cases hkept

/-- Witness for C3 at a concrete descriptor and filesystem: with
`envs = ["/opt/conda", "/missing"]` and only `/opt/conda/bin/python`
existing, the surviving record's path passed the check and the `/missing`
candidate is excluded. -/
theorem claim_C3_witness :
    (fun p => p == "/opt/conda/bin/python")
      (mkCondaInterpreter (getDisplayName { envs := some ["/opt/conda", "/missing"] })
        none "/opt/conda").path = true ∧
    mkCondaInterpreter (getDisplayName { envs := some ["/opt/conda", "/missing"] })
        none "/missing" ∉
      parseCondaInfo (fun p => p == "/opt/conda/bin/python")
        { envs := some ["/opt/conda", "/missing"] } :=
  ⟨(claim_C3_only_existing_paths (fun p => p == "/opt/conda/bin/python")
      { envs := some ["/opt/conda", "/missing"] }).1 _ (by decide),
   (claim_C3_only_existing_paths (fun p => p == "/opt/conda/bin/python")
      { envs := some ["/opt/conda", "/missing"] }).2 "/missing" (by decide)⟩

/-- Claim C7: every record `parseCondaInfo` returns comes from a candidate
root, and carries the base display name when that root equals the
descriptor's `default_prefix`, the base display name suffixed with the
root's basename in parentheses otherwise. -/
theorem claim_C7_display_name (pathExists : String → Bool) (info : CondaInfo)
    (r : PythonInterpreter) (hr : r ∈ parseCondaInfo pathExists info) :
    ∃ env ∈ candidateEnvs info,
      r.displayName = some (if some env = info.defaultPrefix then getDisplayName info
        else getDisplayName info ++ " (" ++ pathBasename env ++ ")") := by
  rw [parseCondaInfo_eq] at hr
  rcases List.mem_map.1 (List.mem_filter.1 hr).1 with ⟨env, henv, heq⟩
  refine ⟨env, henv, ?_⟩
  rw [← heq]
  rfl

/-- Witness for C7 at the spec's example: `envs = ["/opt/conda/envs/foo"]`
with the filesystem confirming existence — the single record's display
name is the base name suffixed with `(foo)`. -/
theorem claim_C7_witness :
    (∃ env ∈ candidateEnvs { envs := some ["/opt/conda/envs/foo"] },
      (mkCondaInterpreter (getDisplayName { envs := some ["/opt/conda/envs/foo"] })
          none "/opt/conda/envs/foo").displayName =
        some (if some env = ({ envs := some ["/opt/conda/envs/foo"] } : CondaInfo).defaultPrefix
          then getDisplayName { envs := some ["/opt/conda/envs/foo"] }
          else getDisplayName { envs := some ["/opt/conda/envs/foo"] } ++
            " (" ++ pathBasename env ++ ")")) ∧
    (mkCondaInterpreter (getDisplayName { envs := some ["/opt/conda/envs/foo"] })
        none "/opt/conda/envs/foo").displayName = some "Continuum Analytics (foo)" :=
  ⟨claim_C7_display_name (fun _ => true) { envs := some ["/opt/conda/envs/foo"] } _
    (by decide), by decide⟩

/-- Claim C4: `getCondaFile` is a total function of its inputs (the
embedding returns a plain `String`, never an error), and each failure
branch returns the bare command name: no secondary provider configured;
a provider whose interpreters contain no Conda-flavored one; and a derived
sibling path the filesystem check rejects. -/
theorem claim_C4_conda_file_fallbacks :
    (∀ pathExists : String → Bool, getCondaFile none pathExists = "conda") ∧
    (∀ (interpreters : List PythonInterpreter) (pathExists : String → Bool),
      (∀ i ∈ interpreters, isCondaEnvironment i = false) →
      getCondaFile (some interpreters) pathExists = "conda") ∧
    (∀ (interpreters : List PythonInterpreter) (pathExists : String → Bool)
      (c : PythonInterpreter),
      getLatestVersion (interpreters.filter isCondaEnvironment) = some c →
      pathExists (pathJoin [pathDirname c.path, "conda.exe"]) = false →
      getCondaFile (some interpreters) pathExists = "conda") := by
  refine ⟨fun _ => rfl, ?_, ?_⟩
  · intro interpreters pathExists h
    have hf : interpreters.filter isCondaEnvironment = [] :=
      List.filter_eq_nil_iff.2 (fun a ha => by rw [h a ha]; simp)
    simp only [getCondaFile, hf]
    have hlv : getLatestVersion [] = (none : Option PythonInterpreter) := rfl
    rw [hlv]
    by_cases hc : pathExists "conda" = true
    · simp [hc]
    · simp [hc]
  · intro interpreters pathExists c hlatest hfail
    simp only [getCondaFile, hlatest]
    rw [hfail]
    simp

/-- Witness for C4 at concrete inputs: no provider; a provider with one
non-Conda interpreter; and a Conda-flavored interpreter whose derived
`conda.exe` sibling does not exist — all three return `"conda"`. -/
theorem claim_C4_witness :
    getCondaFile none (fun _ => false) = "conda" ∧
    getCondaFile (some [{ path := "/usr/bin/python" }]) (fun _ => false) = "conda" ∧
    getCondaFile
      (some [⟨"/opt/anaconda/python", some "Anaconda 4.4.0", none, some "4.4.0"⟩])
      (fun _ => false) = "conda" :=
  ⟨claim_C4_conda_file_fallbacks.1 (fun _ => false),
   claim_C4_conda_file_fallbacks.2.1 [{ path := "/usr/bin/python" }] (fun _ => false)
     (by decide),
   claim_C4_conda_file_fallbacks.2.2
     [⟨"/opt/anaconda/python", some "Anaconda 4.4.0", none, some "4.4.0"⟩]
     (fun _ => false)
     ⟨"/opt/anaconda/python", some "Anaconda 4.4.0", none, some "4.4.0"⟩
     (by decide) (by decide)⟩

/-- Claim C5: when the provider's list, filtered to Conda-flavored
interpreters, has a latest-version element `c`, the Locator derives the
sibling path `dirname(c.path)/conda.exe` and returns exactly that path
whenever the filesystem check accepts it. -/
theorem claim_C5_derived_conda_path (interpreters : List PythonInterpreter)
    (pathExists : String → Bool) (c : PythonInterpreter)
    (hlatest : getLatestVersion (interpreters.filter isCondaEnvironment) = some c)
    (hexists : pathExists (pathJoin [pathDirname c.path, "conda.exe"]) = true) :
    getCondaFile (some interpreters) pathExists = pathJoin [pathDirname c.path, "conda.exe"] := by
  simp only [getCondaFile, hlatest]
  rw [hexists]
  simp

/-- Witness for C5: one Conda-flavored interpreter at
`/opt/anaconda/python` whose sibling `/opt/anaconda/conda.exe` exists —
`getCondaFile` returns that sibling. -/
theorem claim_C5_witness :
    getCondaFile (some [⟨"/opt/anaconda/python", some "Anaconda 4.4.0", none, some "4.4.0"⟩])
      (fun p => p == "/opt/anaconda/conda.exe") = "/opt/anaconda/conda.exe" :=
  (claim_C5_derived_conda_path
    [⟨"/opt/anaconda/python", some "Anaconda 4.4.0", none, some "4.4.0"⟩]
    (fun p => p == "/opt/anaconda/conda.exe")
    ⟨"/opt/anaconda/python", some "Anaconda 4.4.0", none, some "4.4.0"⟩
    (by decide) (by decide)).trans (by decide)

/-- Claim C6: `getLatestVersion` never returns an interpreter with a
missing or empty version; whatever it returns is an input that every input
with a non-empty version string compares not-greater-than under the
dotted-numeric `compareVersion` (through `versionLe`); and it returns
nothing exactly when no input has a non-empty version. -/
theorem claim_C6_latest_version (interpreters : List PythonInterpreter) :
    (∀ r : PythonInterpreter, getLatestVersion interpreters = some r →
      r ∈ interpreters ∧ hasVersion r = true ∧
        ∀ j ∈ interpreters, hasVersion j = true → versionLe j r) ∧
    (getLatestVersion interpreters = none ↔
      ∀ j ∈ interpreters, hasVersion j = false) :=
  ⟨fun _ h => getLatestVersion_some h, getLatestVersion_none_iff interpreters⟩

/-- Witness for C6: between versions `"3.8.0"` and `"3.10.0"` the numeric
(not lexicographic) comparison selects `"3.10.0"`, and the selected record
is maximal among the inputs. -/
theorem claim_C6_witness :
    getLatestVersion [⟨"/a/python", none, none, some "3.8.0"⟩,
        ⟨"/b/python", none, none, some "3.10.0"⟩] =
      some ⟨"/b/python", none, none, some "3.10.0"⟩ ∧
    (⟨"/b/python", none, none, some "3.10.0"⟩ : PythonInterpreter) ∈
        [⟨"/a/python", none, none, some "3.8.0"⟩,
          ⟨"/b/python", none, none, some "3.10.0"⟩] ∧
      hasVersion ⟨"/b/python", none, none, some "3.10.0"⟩ = true ∧
      ∀ j ∈ [(⟨"/a/python", none, none, some "3.8.0"⟩ : PythonInterpreter),
          ⟨"/b/python", none, none, some "3.10.0"⟩],
        hasVersion j = true → versionLe j ⟨"/b/python", none, none, some "3.10.0"⟩ :=
  ⟨by decide,
   (claim_C6_latest_version [⟨"/a/python", none, none, some "3.8.0"⟩,
      ⟨"/b/python", none, none, some "3.10.0"⟩]).1
     ⟨"/b/python", none, none, some "3.10.0"⟩ (by decide)⟩

/-- Claim C8: `getBitnessDisplayName` maps a platform string to `"64 bit"`
when it contains `64`, `x86` or `x86_64`; otherwise to `"32 bit"` when it
contains `32`, `i686` or `i386`; otherwise to the input unchanged — with
the spec's examples `linux-64`, `osx-32`, `noarch` and the empty string. -/
theorem claim_C8_bitness :
    (∀ value : String,
      getBitnessDisplayName (some value) =
        if (jsContains value "64" || jsContains value "x86" || jsContains value "x86_64")
          = true then "64 bit"
        else if (jsContains value "32" || jsContains value "i686" || jsContains value "i386")
          = true then "32 bit"
        else value) ∧
    getBitnessDisplayName (some "linux-64") = "64 bit" ∧
    getBitnessDisplayName (some "osx-32") = "32 bit" ∧
    getBitnessDisplayName (some "noarch") = "noarch" ∧
    getBitnessDisplayName (some "") = "" := by
  refine ⟨fun value => ?_, by decide, by decide, by decide, by decide⟩
  simp only [getBitnessDisplayName, Option.getD_some, List.any_cons, List.any_nil,
    Bool.or_false, Bool.or_assoc]

/-- Claim C9: when `conda_version`, the truncated `pythonVersion` and
`bitnesAndVersion` are all empty and `sys.version` is a string,
`getDisplayName` parses `sys.version`: split on `|`, trim the segments,
return the second verbatim when there are at least two and it contains
`conda`, the fixed Conda display name otherwise. -/
theorem claim_C9_sys_version_fallback (info : CondaInfo) (sysVersion : String)
    (hcv : ((info.conda_version).getD "").length = 0)
    (hpv : (getDisplayVersion info.python_version).length = 0)
    (hbv : (joinWith ", " ([getBitnessDisplayName info.platform,
        getDisplayVersion info.python_version].filter
        (fun item => decide (0 < item.length)))).length = 0)
    (hsv : info.sysVersion = some sysVersion) :
    getDisplayName info =
      (let versionParts := (jsSplitChar '|' sysVersion).map jsTrim
       if 1 < versionParts.length ∧ jsContains (versionParts.getD 1 "") "conda" = true
       then versionParts.getD 1 ""
       else AnacondaDisplayName) := by
  simp only [getDisplayName]
  rw [if_pos ⟨hcv, hpv, hbv⟩, hsv]
  show getDisplayNameFromSysVersion sysVersion = _
  by_cases hempty : sysVersion = ""
  · subst hempty
    decide
  · simp only [getDisplayNameFromSysVersion, if_neg hempty]

/-- Witness for C9 at the spec's example `sys.version` string (all other
fields absent): the second `|`-segment is returned verbatim. -/
theorem claim_C9_witness :
    getDisplayName
      { sysVersion :=
          some "3.6.1 |Anaconda 4.4.0 (64-bit)| (default, May 11 2017, 13:25:24) [MSC v.1900 64 bit (AMD64)]" } =
      "Anaconda 4.4.0 (64-bit)" :=
  (claim_C9_sys_version_fallback
    { sysVersion :=
        some "3.6.1 |Anaconda 4.4.0 (64-bit)| (default, May 11 2017, 13:25:24) [MSC v.1900 64 bit (AMD64)]" }
    "3.6.1 |Anaconda 4.4.0 (64-bit)| (default, May 11 2017, 13:25:24) [MSC v.1900 64 bit (AMD64)]"
    (by decide) (by decide) (by decide) rfl).trans (by decide)

/-- Claim C10: when the descriptor's `envs` field holds an array and
`default_prefix` is non-empty, `parseCondaInfo` appends `default_prefix`
to that very array (the JS `envs.push` writes through the alias), so a
second call on the same descriptor sees `envs` already ending in the
default prefix and appends it again. -/
theorem claim_C10_envs_mutation (pathExists : String → Bool) (info : CondaInfo)
    (l : List String) (s : String) (henv : info.envs = some l)
    (hdp : info.defaultPrefix = some s) (hs : 0 < s.length) :
    (parseCondaInfoRun pathExists info).2 = { info with envs := some (l ++ [s]) } ∧
    ((parseCondaInfoRun pathExists ((parseCondaInfoRun pathExists info).2)).2).envs =
      some ((l ++ [s]) ++ [s]) := by
  have hps : decide (0 < s.length) = true := decide_eq_true hs
  have h1 : (parseCondaInfoRun pathExists info).2 = { info with envs := some (l ++ [s]) } := by
    simp only [parseCondaInfoRun, henv, hdp, hps, Option.getD_some]
  refine ⟨h1, ?_⟩
  rw [h1]
  simp only [parseCondaInfoRun, hdp, hps, Option.getD_some]

/-- Witness for C10: one environment and a non-empty default prefix — the
first call leaves the descriptor's `envs` holding the appended prefix, and
a second call on the returned descriptor duplicates it. -/
theorem claim_C10_witness :
    (parseCondaInfoRun (fun _ => true)
        { envs := some ["/opt/conda/envs/foo"], defaultPrefix := some "/opt/conda" }).2 =
      { envs := some ["/opt/conda/envs/foo", "/opt/conda"],
        defaultPrefix := some "/opt/conda" } ∧
    ((parseCondaInfoRun (fun _ => true)
        ((parseCondaInfoRun (fun _ => true)
          { envs := some ["/opt/conda/envs/foo"],
            defaultPrefix := some "/opt/conda" }).2)).2).envs =
      some ["/opt/conda/envs/foo", "/opt/conda", "/opt/conda"] := by
  have h := claim_C10_envs_mutation (fun _ => true)
    { envs := some ["/opt/conda/envs/foo"], defaultPrefix := some "/opt/conda" }
    ["/opt/conda/envs/foo"] "/opt/conda" rfl rfl (by decide)
  exact ⟨h.1.trans (by decide), h.2.trans (by decide)⟩

/-- Claim C1 (the code at the failing input): for stdout `"null"` —
well-formed JSON whose structure differs from the expected descriptor —
`JSON.parse` succeeds, the `try`/`catch` is bypassed, and the promise
returned by the `async` `parseCondaInfo(null)` rejects with a `TypeError`
(reading `conda_version` of `null`), which `resolve` adopts: the caller of
`getInterpreters()` sees a rejection, not a resolved list. Empty stdout
and non-JSON stdout do resolve with the empty list. -/
theorem claim_C1_null_stdout_rejects :
    getInterpreters (fun _ => true) "null" =
      Except.error "TypeError: Cannot read properties of null (reading conda_version)" ∧
    getInterpreters (fun _ => true) "" = Except.ok [] ∧
    getInterpreters (fun _ => true) "this is not JSON" = Except.ok [] :=
  ⟨rfl, rfl, rfl⟩
